import Mathlib

/-
Verification of the chat-session sandbox extension core, a shallow embedding
of src/src/extension.ts. The embedding covers the session registry (the
module-level sampleSessions array), the read-only virtual file system
(MySessionFileSystem), the session list provider
(MyChatSessionItemProvider.provideChatSessionItems) and the registry effect
of the chat-session-sandbox.test-move command.
-/

namespace ChatSessions

/-- Status enum from vscode.ChatSessionStatus as used by the sample data. -/
inductive ChatSessionStatus where
  | Completed
  | InProgress
  | Failed
deriving DecidableEq, Repr

/-- Timing block of a session record: startTime is a timestamp in
milliseconds, endTime is optional. JS timestamps are modelled as Int. -/
structure SessionTiming where
  startTime : Int
  endTime : Option Int
deriving DecidableEq, Repr

/-- The URIs of this extension have only a scheme and a path
(vscode.Uri.parse applied to strings such as my-session:/session-1 gives
scheme my-session and path /session-1, with empty authority, query and
fragment). -/
structure Uri where
  scheme : String
  path : String
deriving DecidableEq, Repr

/-- Rendering of such a URI as a string, matching vscode.Uri.toString on
URIs with only a scheme and a path. The code compares URIs exclusively via
toString equality. -/
def Uri.toString (u : Uri) : String := u.scheme ++ ":" ++ u.path

/-- One entry of the sampleSessions array (a vscode.ChatSessionItem). -/
structure SessionRecord where
  resource : Uri
  label : String
  description : String
  status : ChatSessionStatus
  timing : SessionTiming
deriving DecidableEq, Repr

/-- URI scheme used for the chat sessions (extension.ts line 8). -/
def sessionScheme : String := "my-session"

/-- The seed registry, from extension.ts lines 10 to 40. The calls to
Date.now() during module initialization are modelled by the single
parameter now (they all run within the same millisecond in practice, and
the offsets subtracted are what the code fixes). -/
def sampleSessions (now : Int) : List SessionRecord :=
  [ { resource := { scheme := "my-session", path := "/session-1" }
    , label := "Chat Session 1"
    , description := "First example session"
    , status := ChatSessionStatus.Completed
    , timing := { startTime := now - 3600000, endTime := some (now - 3000000) } }
  , { resource := { scheme := "my-session", path := "/session-2" }
    , label := "Chat Session 2"
    , description := "Second example session"
    , status := ChatSessionStatus.InProgress
    , timing := { startTime := now - 1800000, endTime := none } }
  , { resource := { scheme := "my-session", path := "/session-3" }
    , label := "Chat Session 3"
    , description := "Third example session"
    , status := ChatSessionStatus.Failed
    , timing := { startTime := now - 7200000, endTime := some (now - 6000000) } } ]

/-- vscode.FileType as used by the provider. -/
inductive FileType where
  | File
  | Directory
deriving DecidableEq, Repr

/-- vscode.FileStat as produced by MySessionFileSystem.stat. -/
structure FileStat where
  type : FileType
  ctime : Int
  mtime : Int
  size : Nat
deriving DecidableEq, Repr

/-- The two vscode.FileSystemError variants the provider throws:
FileNotFound carries the requested URI (as a string), NoPermissions
carries the message passed by the code. -/
inductive FSError where
  | FileNotFound (uri : String)
  | NoPermissions (msg : String)
deriving DecidableEq, Repr

/-- The mutable state the embedded operations touch: the registry (the
sampleSessions array, which MyChatSessionItemProvider.sessions aliases)
and the number of firings of the onDidMoveFile event emitter. -/
structure StoreState where
  registry : List SessionRecord
  movedEvents : Nat
deriving DecidableEq, Repr

/-- Key lookup as the code performs it: some record whose resource
renders, via toString, to the same string as the given URI. -/
def containsKey (regs : List SessionRecord) (uri : Uri) : Bool :=
  regs.any (fun r => r.resource.toString == uri.toString)

/-- Number of records whose key renders to the same string as uri. -/
def countKey (regs : List SessionRecord) (uri : Uri) : Nat :=
  (regs.filter (fun r => r.resource.toString == uri.toString)).length

namespace MySessionFileSystem

/-- MySessionFileSystem.watch (lines 52 to 55): no-op subscription. -/
def watch (s : StoreState) (_uri : Uri) : Unit × StoreState := ((), s)

/-- MySessionFileSystem.stat (lines 57 to 69): loops over sampleSessions
and returns a File stat of size 0 for the first record whose resource
toString equals the toString of the given URI; throws FileNotFound
otherwise. Date.now() at call time is the parameter now. -/
def stat (now : Int) (s : StoreState) (uri : Uri) :
    Except FSError FileStat × StoreState :=
  (match s.registry.find? (fun r => r.resource.toString == uri.toString) with
   | some _ =>
     Except.ok { type := FileType.File, ctime := now, mtime := now, size := 0 }
   | none => Except.error (FSError.FileNotFound (uri.toString)), s)

/-- MySessionFileSystem.readDirectory (lines 71 to 74): always empty. -/
def readDirectory (s : StoreState) (_uri : Uri) :
    List (String × FileType) × StoreState := ([], s)

/-- MySessionFileSystem.createDirectory (lines 76 to 78): always throws
NoPermissions with message readonly. -/
def createDirectory (s : StoreState) (_uri : Uri) :
    Except FSError Unit × StoreState :=
  (Except.error (FSError.NoPermissions ("readonly")), s)

/-- The content string synthesized by readFile (line 84). -/
def sessionContent (uri : Uri) : String :=
  "Chat Session: " ++ uri.path ++ "\n\nThis is the content of the session."

/-- MySessionFileSystem.readFile (lines 80 to 89): for a key matching a
record, returns the UTF-8 encoding of the synthesized content; throws
FileNotFound otherwise. Bytes are modelled as List UInt8. -/
def readFile (s : StoreState) (uri : Uri) :
    Except FSError (List UInt8) × StoreState :=
  (match s.registry.find? (fun r => r.resource.toString == uri.toString) with
   | some _ => Except.ok (sessionContent uri).toUTF8.data.toList
   | none => Except.error (FSError.FileNotFound (uri.toString)), s)

/-- The options argument of writeFile. -/
structure WriteOptions where
  create : Bool
  overwrite : Bool
deriving DecidableEq, Repr

/-- MySessionFileSystem.writeFile (lines 91 to 93): always throws
NoPermissions with message readonly. -/
def writeFile (s : StoreState) (_uri : Uri) (_content : List UInt8)
    (_options : WriteOptions) : Except FSError Unit × StoreState :=
  (Except.error (FSError.NoPermissions ("readonly")), s)

/-- MySessionFileSystem.delete (lines 95 to 97): always throws
NoPermissions with message readonly. -/
def delete (s : StoreState) (_uri : Uri) : Except FSError Unit × StoreState :=
  (Except.error (FSError.NoPermissions ("readonly")), s)

/-- Firing of the onDidMoveFile event emitter (line 100). -/
def fireOnDidMoveFile (s : StoreState) : StoreState :=
  { s with movedEvents := s.movedEvents + 1 }

/-- MySessionFileSystem.rename (lines 99 to 101): ignores both URIs,
fires onDidMoveFile once, returns normally. -/
def rename (s : StoreState) (_oldUri _newUri : Uri) :
    Except FSError Unit × StoreState :=
  (Except.ok (), fireOnDidMoveFile s)

end MySessionFileSystem

/-- MyChatSessionItemProvider.provideChatSessionItems (lines 185 to 189):
returns this.sessions, which aliases the sampleSessions array, in its
current order. -/
def provideChatSessionItems (s : StoreState) : List SessionRecord :=
  s.registry

/-- The onDidMoveFile listener registered by the test-move command
(lines 227 to 230): it executes the assignment
sampleSessions[0].resource = to, overwriting the resource of the record at
index 0 with the target URI. On an empty array the JS assignment would
fail at run time (member assignment on undefined), modelled as none. -/
def testMoveListener (regs : List SessionRecord) (target : Uri) :
    Option (List SessionRecord) :=
  match regs with
  | [] => none
  | r :: rest => some ({ r with resource := target } :: rest)

/-- Source URI hardcoded by the test-move command (line 223). -/
def movedFrom : Uri := { scheme := "my-session", path := "/session-1" }

/-- Target URI hardcoded by the test-move command (line 224). -/
def movedTo : Uri := { scheme := "my-session", path := "/moved-session-1" }

/-- The registry effect of the rename protocol of the test-move command
(lines 221 to 237), generalized over the two keys the command hardcodes
as movedFrom and movedTo: the workspace edit makes the host call
MySessionFileSystem.rename, which fires onDidMoveFile once, and the
subscribed listener overwrites the resource of the record at index 0 with
the new URI. Neither the file system rename nor the listener ever reads
the old URI, and no lookup or NotFound check happens anywhere on the
path. -/
def renameSession (s : StoreState) (_oldUri newUri : Uri) :
    Option StoreState :=
  (testMoveListener s.registry newUri).map
    (fun regs => { registry := regs, movedEvents := s.movedEvents + 1 })

/-- The test-move command itself, at its hardcoded URIs. -/
def testMove (s : StoreState) : Option StoreState :=
  renameSession s movedFrom movedTo

/-- Registry states reachable from the seed by any sequence of runs of
the rename protocol (with the target key generalized). -/
inductive Reachable (now : Int) : List SessionRecord → Prop where
  | seed : Reachable now (sampleSessions now)
  | move (regs : List SessionRecord) (target : Uri) (regs2 : List SessionRecord) :
      Reachable now regs → testMoveListener regs target = some regs2 →
      Reachable now regs2

/-- startTime is at most endTime whenever endTime is present. -/
def timingOk (r : SessionRecord) : Bool :=
  match r.timing.endTime with
  | none => true
  | some e => decide (r.timing.startTime ≤ e)

/-- endTime is present only when the status is Completed or Failed. -/
def endTimeStatusOk (r : SessionRecord) : Bool :=
  match r.timing.endTime with
  | none => true
  | some _ =>
    match r.status with
    | ChatSessionStatus.Completed => true
    | ChatSessionStatus.Failed => true
    | ChatSessionStatus.InProgress => false

/-- Concrete inputs used by witnesses and counterexamples. -/
def uriA : Uri := { scheme := "my-session", path := "/a" }

def uriB : Uri := { scheme := "my-session", path := "/b" }

def uriC : Uri := { scheme := "my-session", path := "/c" }

def recA : SessionRecord :=
  { resource := uriA, label := "A", description := "first"
  , status := ChatSessionStatus.Completed
  , timing := { startTime := 0, endTime := some 1 } }

def recB : SessionRecord :=
  { resource := uriB, label := "B", description := "second"
  , status := ChatSessionStatus.InProgress
  , timing := { startTime := 2, endTime := none } }

def stateA : StoreState := { registry := [recA], movedEvents := 0 }

def stateAB : StoreState := { registry := [recA, recB], movedEvents := 0 }

def stateBA : StoreState := { registry := [recB, recA], movedEvents := 0 }

def seedState : StoreState := { registry := sampleSessions 0, movedEvents := 0 }

lemma any_eq_find?_isSome {α : Type} (p : α → Bool) (l : List α) :
    l.any p = (l.find? p).isSome := by
  induction l with
  | nil => simp
  | cons x xs ih =>
    cases hx : p x
    · simp [List.find?, hx, ih]
    · simp [List.find?, hx]

lemma containsKey_of_mem {regs : List SessionRecord} {r : SessionRecord}
    (hr : r ∈ regs) : containsKey regs r.resource = true := by
  unfold containsKey
  rw [List.any_eq_true]
  exact ⟨r, hr, by simp⟩

lemma stat_eq_ite (now : Int) (s : StoreState) (uri : Uri) :
    MySessionFileSystem.stat now s uri =
      ((if containsKey s.registry uri then
          Except.ok { type := FileType.File, ctime := now, mtime := now, size := 0 }
        else Except.error (FSError.FileNotFound (uri.toString))), s) := by
  unfold MySessionFileSystem.stat containsKey
  rw [any_eq_find?_isSome]
  cases h : s.registry.find? (fun r => r.resource.toString == uri.toString) <;>
    simp [h]

lemma readFile_eq_ite (s : StoreState) (uri : Uri) :
    MySessionFileSystem.readFile s uri =
      ((if containsKey s.registry uri then
          Except.ok (MySessionFileSystem.sessionContent uri).toUTF8.data.toList
        else Except.error (FSError.FileNotFound (uri.toString))), s) := by
  unfold MySessionFileSystem.readFile containsKey
  rw [any_eq_find?_isSome]
  cases h : s.registry.find? (fun r => r.resource.toString == uri.toString) <;>
    simp [h]

/-- Claim C3: for every pair of keys, MySessionFileSystem.rename returns
normally, fires the onDidMoveFile event exactly once, and leaves the
registry, hence every field of every record, unchanged. -/
theorem rename_fires_one_event_and_keeps_registry (s : StoreState)
    (oldUri newUri : Uri) :
    (MySessionFileSystem.rename s oldUri newUri).1 = Except.ok () ∧
    (MySessionFileSystem.rename s oldUri newUri).2.movedEvents =
      s.movedEvents + 1 ∧
    (MySessionFileSystem.rename s oldUri newUri).2.registry = s.registry :=
  ⟨rfl, rfl, rfl⟩

/-- Claim C4: stat answers a File stat of size 0 exactly on keys present
in the registry and fails with FileNotFound otherwise; in particular it
succeeds, with size 0 and no state change, on the key of every record. -/
theorem stat_found_iff (now : Int) (s : StoreState) (uri : Uri) :
    (MySessionFileSystem.stat now s uri =
      ((if containsKey s.registry uri then
          Except.ok { type := FileType.File, ctime := now, mtime := now, size := 0 }
        else Except.error (FSError.FileNotFound (uri.toString))), s)) ∧
    (∀ r ∈ s.registry,
      MySessionFileSystem.stat now s r.resource =
        (Except.ok { type := FileType.File, ctime := now, mtime := now, size := 0 },
         s)) := by
  refine ⟨stat_eq_ite now s uri, fun r hr => ?_⟩
  rw [stat_eq_ite, containsKey_of_mem hr]
  simp

/-- Claim C4 witness: stat at the key of the first seeded record. -/
theorem stat_found_iff_witness :
    MySessionFileSystem.stat 0 seedState movedFrom =
      (Except.ok { type := FileType.File, ctime := 0, mtime := 0, size := 0 },
       seedState) := by
  refine (stat_found_iff 0 seedState movedFrom).2
    { resource := movedFrom
    , label := "Chat Session 1"
    , description := "First example session"
    , status := ChatSessionStatus.Completed
    , timing := { startTime := 0 - 3600000, endTime := some (0 - 3000000) } } ?_
  decide

/-- Claim C5: readFile succeeds exactly on keys present in the registry,
answering the UTF-8 bytes of the synthesized text, and fails with
FileNotFound on every absent key; presence means some record whose key
renders to the same string. -/
theorem readFile_found_iff (s : StoreState) (uri : Uri) :
    (MySessionFileSystem.readFile s uri =
      ((if containsKey s.registry uri then
          Except.ok (MySessionFileSystem.sessionContent uri).toUTF8.data.toList
        else Except.error (FSError.FileNotFound (uri.toString))), s)) ∧
    (containsKey s.registry uri = true ↔
      ∃ r ∈ s.registry, r.resource.toString = uri.toString) ∧
    MySessionFileSystem.sessionContent uri =
      "Chat Session: " ++ uri.path ++ "\n\nThis is the content of the session." := by
  refine ⟨readFile_eq_ite s uri, ?_, rfl⟩
  unfold containsKey
  rw [List.any_eq_true]
  simp

/-- Claim C5 witness: readFile at the key of the first seeded record gives
the bytes of the expected text. -/
theorem readFile_found_iff_witness :
    (MySessionFileSystem.readFile seedState movedFrom).1 =
      Except.ok
        ("Chat Session: /session-1\n\nThis is the content of the session.").toUTF8.data.toList := by
  have h := (readFile_found_iff seedState movedFrom).1
  rw [h]
  rfl

/-- Claim C6: writeFile, delete and createDirectory fail with
NoPermissions on every input and leave the state untouched. -/
theorem mutating_ops_always_no_permissions (s : StoreState) (uri : Uri)
    (content : List UInt8) (opts : MySessionFileSystem.WriteOptions) :
    MySessionFileSystem.writeFile s uri content opts =
      (Except.error (FSError.NoPermissions ("readonly")), s) ∧
    MySessionFileSystem.delete s uri =
      (Except.error (FSError.NoPermissions ("readonly")), s) ∧
    MySessionFileSystem.createDirectory s uri =
      (Except.error (FSError.NoPermissions ("readonly")), s) :=
  ⟨rfl, rfl, rfl⟩

/-- Claim C10: MySessionFileSystem.rename is total: for every pair of
keys, also when the old key matches no record, it returns normally,
fires onDidMoveFile once and performs no lookup of either key. -/
theorem rename_total_never_fails (s : StoreState) (oldUri newUri : Uri) :
    MySessionFileSystem.rename s oldUri newUri =
      (Except.ok (), { s with movedEvents := s.movedEvents + 1 }) :=
  rfl

/-- Claim C7: readFile changes no state, so two successive calls with the
same key run against the same registry and return identical results; on a
present key both succeed with the byte-identical synthesized content. -/
theorem readFile_idempotent (s : StoreState) (uri : Uri)
    (h : containsKey s.registry uri = true) :
    (MySessionFileSystem.readFile s uri).2 = s ∧
    (MySessionFileSystem.readFile (MySessionFileSystem.readFile s uri).2 uri).1 =
      (MySessionFileSystem.readFile s uri).1 ∧
    (MySessionFileSystem.readFile s uri).1 =
      Except.ok (MySessionFileSystem.sessionContent uri).toUTF8.data.toList := by
  have he := readFile_eq_ite s uri
  have h2 : (MySessionFileSystem.readFile s uri).2 = s := by rw [he]
  refine ⟨h2, by rw [h2], ?_⟩
  rw [he, h]
  simp

/-- Claim C7 witness: two reads of the first seeded key agree. -/
theorem readFile_idempotent_witness :
    (MySessionFileSystem.readFile seedState movedFrom).2 = seedState ∧
    (MySessionFileSystem.readFile
        (MySessionFileSystem.readFile seedState movedFrom).2 movedFrom).1 =
      (MySessionFileSystem.readFile seedState movedFrom).1 ∧
    (MySessionFileSystem.readFile seedState movedFrom).1 =
      Except.ok (MySessionFileSystem.sessionContent movedFrom).toUTF8.data.toList :=
  readFile_idempotent seedState movedFrom (by decide)

/-- Claim C9: every record of every registry reachable from the seed by
any sequence of renames satisfies both timing invariants: startTime at
most endTime when endTime is present, and endTime present only with
status Completed or Failed (so the InProgress record carries none). -/
theorem records_invariant (now : Int) (regs : List SessionRecord)
    (h : Reachable now regs) :
    regs.all (fun r => timingOk r && endTimeStatusOk r) = true := by
  induction h with
  | seed =>
    simp [sampleSessions, timingOk, endTimeStatusOk]
    omega
  | move regs target regs2 hreach heq ih =>
    cases regs with
    | nil => simp [testMoveListener] at heq
    | cons r rest =>
      simp only [testMoveListener, Option.some.injEq] at heq
      subst heq
      exact ih

/-- Claim C9 witness: the seed registry satisfies the invariants. -/
theorem records_invariant_witness :
    (sampleSessions 0).all (fun r => timingOk r && endTimeStatusOk r) = true :=
  records_invariant 0 (sampleSessions 0) Reachable.seed

/-- Claim C8: provideChatSessionItems returns the registry in its stored
order; the rename listener rewrites the first record in place, so the
renamed record keeps ordinal position 0, the length and the tail are
unchanged, every label stays at its position; and along every reachable
sequence of renames the labels stay, position by position, those of the
seed. -/
theorem listSessions_order_stable (now : Int) (s : StoreState) (target : Uri)
    (r : SessionRecord) (rest : List SessionRecord) (regs2 : List SessionRecord)
    (hreg : s.registry = r :: rest) (hreach : Reachable now regs2) :
    provideChatSessionItems s = s.registry ∧
    testMoveListener s.registry target = some ({ r with resource := target } :: rest) ∧
    ({ r with resource := target } :: rest).length = s.registry.length ∧
    ({ r with resource := target } :: rest).map SessionRecord.label =
      s.registry.map SessionRecord.label ∧
    ({ r with resource := target } :: rest).tail = s.registry.tail ∧
    regs2.map SessionRecord.label = (sampleSessions now).map SessionRecord.label := by
  refine ⟨rfl, ?_⟩
  rw [hreg]
  refine ⟨rfl, rfl, rfl, rfl, ?_⟩
  induction hreach with
  | seed => rfl
  | move regs3 target3 regs4 hreach3 heq ih =>
    cases regs3 with
    | nil => simp [testMoveListener] at heq
    | cons x xs =>
      simp only [testMoveListener, Option.some.injEq] at heq
      subst heq
      exact ih

/-- Claim C8 witness: the registry [recA, recB] renamed toward uriC. -/
theorem listSessions_order_stable_witness :
    provideChatSessionItems stateAB = stateAB.registry ∧
    testMoveListener stateAB.registry uriC =
      some ({ recA with resource := uriC } :: [recB]) ∧
    ({ recA with resource := uriC } :: [recB]).length = stateAB.registry.length ∧
    ({ recA with resource := uriC } :: [recB]).map SessionRecord.label =
      stateAB.registry.map SessionRecord.label ∧
    ({ recA with resource := uriC } :: [recB]).tail = stateAB.registry.tail ∧
    (sampleSessions 0).map SessionRecord.label =
      (sampleSessions 0).map SessionRecord.label :=
  listSessions_order_stable 0 stateAB uriC recA [recB] (sampleSessions 0)
    rfl Reachable.seed

lemma containsKey_cons_false {x : SessionRecord} {xs : List SessionRecord}
    {u : Uri} (h : containsKey (x :: xs) u = false) :
    (x.resource.toString == u.toString) = false ∧ containsKey xs u = false := by
  unfold containsKey at h ⊢
  simpa using h

lemma countKey_eq_zero_of_containsKey_false {regs : List SessionRecord}
    {u : Uri} (h : containsKey regs u = false) : countKey regs u = 0 := by
  induction regs with
  | nil => rfl
  | cons x xs ih =>
    obtain ⟨h1, h2⟩ := containsKey_cons_false h
    unfold countKey
    rw [List.filter_cons]
    simp only [h1]
    exact ih h2

/-- Claim C1 counterexample: in the registry [recB, recA] the old key
uriA exists, carried by the record at index 1; yet the rename protocol
rewrites the record at index 0 instead, so afterwards a record with the
old key is still present and the other record (recB) lost its own key. -/
theorem renameSession_misses_nonfirst_record :
    containsKey stateBA.registry uriA = true ∧
    (renameSession stateBA uriA uriC).map
      (fun s2 => containsKey s2.registry uriA) = some true ∧
    (renameSession stateBA uriA uriC).map
      (fun s2 => containsKey s2.registry uriB) = some false := by
  decide

/-- Claim C1 (amended): when the record carrying the old key sits at the
first position of the registry, no other record carries the old key, and
no record carries the new key, the rename protocol succeeds; afterwards
the registry holds no record with the old key and exactly one record
with the new key, while every label, description, status and timing, and
the key of every other record, is unchanged, positions included. -/
theorem renameSession_ok_when_first (s : StoreState) (oldUri newUri : Uri)
    (r : SessionRecord) (rest : List SessionRecord)
    (hreg : s.registry = r :: rest)
    (hold : r.resource.toString = oldUri.toString)
    (hrest : containsKey rest oldUri = false)
    (hnew : containsKey s.registry newUri = false) :
    renameSession s oldUri newUri =
      some { registry := { r with resource := newUri } :: rest
           , movedEvents := s.movedEvents + 1 } ∧
    containsKey ({ r with resource := newUri } :: rest) oldUri = false ∧
    countKey ({ r with resource := newUri } :: rest) newUri = 1 ∧
    ({ r with resource := newUri } :: rest).map SessionRecord.label =
      s.registry.map SessionRecord.label ∧
    ({ r with resource := newUri } :: rest).map SessionRecord.description =
      s.registry.map SessionRecord.description ∧
    ({ r with resource := newUri } :: rest).map SessionRecord.status =
      s.registry.map SessionRecord.status ∧
    ({ r with resource := newUri } :: rest).map SessionRecord.timing =
      s.registry.map SessionRecord.timing ∧
    ({ r with resource := newUri } :: rest).tail = s.registry.tail := by
  rw [hreg] at hnew
  obtain ⟨hrn, hrestnew⟩ := containsKey_cons_false hnew
  have hno : (newUri.toString == oldUri.toString) = false := by
    rw [beq_eq_false_iff_ne] at hrn ⊢
    rw [hold] at hrn
    exact fun hc => hrn hc.symm
  constructor
  · unfold renameSession
    rw [hreg]
    rfl
  constructor
  · unfold containsKey
    rw [List.any_cons]
    simp only [Bool.or_eq_false_iff]
    exact ⟨hno, hrest⟩
  constructor
  · unfold countKey
    rw [List.filter_cons]
    simp only [beq_self_eq_true, if_true]
    have h0 := countKey_eq_zero_of_containsKey_false hrestnew
    unfold countKey at h0
    simp [h0]
  rw [hreg]
  exact ⟨rfl, rfl, rfl, rfl, rfl⟩

/-- Claim C1 witness: the rename protocol on the registry [recA, recB]
with old key uriA at the first position and fresh new key uriC. -/
theorem renameSession_ok_when_first_witness :
    renameSession stateAB uriA uriC =
      some { registry := { recA with resource := uriC } :: [recB]
           , movedEvents := 1 } ∧
    containsKey ({ recA with resource := uriC } :: [recB]) uriA = false ∧
    countKey ({ recA with resource := uriC } :: [recB]) uriC = 1 ∧
    ({ recA with resource := uriC } :: [recB]).map SessionRecord.label =
      stateAB.registry.map SessionRecord.label ∧
    ({ recA with resource := uriC } :: [recB]).map SessionRecord.description =
      stateAB.registry.map SessionRecord.description ∧
    ({ recA with resource := uriC } :: [recB]).map SessionRecord.status =
      stateAB.registry.map SessionRecord.status ∧
    ({ recA with resource := uriC } :: [recB]).map SessionRecord.timing =
      stateAB.registry.map SessionRecord.timing ∧
    ({ recA with resource := uriC } :: [recB]).tail = stateAB.registry.tail :=
  renameSession_ok_when_first stateAB uriA uriC recA [recB] rfl rfl
    (by decide) (by decide)

/-- Claim C2 counterexample: with registry [recA] and the absent old key
uriB, the rename protocol does not fail with NotFound: it completes
(returns some) and the registry is not left unchanged, its only record
now carrying the new key. -/
theorem renameSession_missing_old_cex :
    containsKey stateA.registry uriB = false ∧
    (renameSession stateA uriB uriC).isSome = true ∧
    (renameSession stateA uriB uriC).map (fun s2 => s2.registry) ≠
      some stateA.registry := by
  decide

/-- Claim C2 (amended): when no record carries the old key, the rename
protocol does not fail with NotFound; on a nonempty registry it completes
successfully all the same, firing the moved event and overwriting the key
of the first record with the new key while leaving every other field of
every record unchanged. -/
theorem renameSession_missing_old_still_rewrites (s : StoreState)
    (oldUri newUri : Uri) (r : SessionRecord) (rest : List SessionRecord)
    (hreg : s.registry = r :: rest)
    (habsent : containsKey s.registry oldUri = false) :
    renameSession s oldUri newUri =
      some { registry := { r with resource := newUri } :: rest
           , movedEvents := s.movedEvents + 1 } := by
  unfold renameSession
  rw [hreg]
  rfl

/-- Claim C2 witness: registry [recA], absent old key uriB. -/
theorem renameSession_missing_old_still_rewrites_witness :
    renameSession stateA uriB uriC =
      some { registry := [{ recA with resource := uriC }], movedEvents := 1 } :=
  renameSession_missing_old_still_rewrites stateA uriB uriC recA [] rfl
    (by decide)

end ChatSessions
